import Mathlib

/-!
Verification development for the ReactRadar brand-analysis pipeline.

The Python source is embedded shallowly: strings are `String`/`List Char`,
Python floats are modelled as exact rationals `ℚ` (decimal literals are
exact), `None`-able values are `Option`, and Python's insertion-ordered
dict iteration is embedded as an explicit ordered list.  Python's
`str.lower` is ASCII-only on the inputs that matter here and is modelled
by `Char.toLower` (which lowers exactly ASCII `A`–`Z`); `str.strip` is
modelled as trimming ASCII whitespace characters.
-/

/-! ## String helpers (models of Python string primitives) -/

/-- ASCII whitespace, as stripped by Python `str.strip()`. -/
def isPySpace (c : Char) : Bool :=
  c = ' ' || c = '\t' || c = '\n' || c = '\r' || c = '\x0b' || c = '\x0c'

/-- Model of Python `str.strip()`: drop whitespace from both ends. -/
def pyStrip (l : List Char) : List Char :=
  ((l.dropWhile isPySpace).reverse.dropWhile isPySpace).reverse

/-- Model of Python `str.lower()` (ASCII). -/
def lowerL (l : List Char) : List Char :=
  l.map Char.toLower

/-- Model of Python `pat in s` substring containment. -/
def subOf : List Char → List Char → Bool
  | pat, [] => pat.isEmpty
  | pat, c :: rest => pat.isPrefixOf (c :: rest) || subOf pat rest

/-- Model of `re.split` on a one-or-more character class: split `l` at
maximal runs of characters satisfying `p`, keeping (possibly empty)
segments between runs, including leading/trailing empty segments. -/
def splitRuns (p : Char → Bool) : List Char → List (List Char)
  | [] => [[]]
  | c :: rest =>
    if p c then
      match rest with
      | [] => [] :: splitRuns p rest
      | c2 :: _ => if p c2 then splitRuns p rest else [] :: splitRuns p rest
    else
      match splitRuns p rest with
      | [] => [[c]]
      | g :: gs => (c :: g) :: gs

/-- Sentence-terminating punctuation of `re.split(r'[.!?]+', text)`. -/
def isSentChar (c : Char) : Bool :=
  c = '.' || c = '!' || c = '?'

/-! ## sentiment_analyzer.py -/

/-- `SentimentAnalyzer.positive_keywords`. -/
def positive_keywords : List String :=
  ["excellent", "great", "good", "best", "outstanding", "impressive",
   "recommend", "love", "enjoy", "smooth", "delicious", "rich",
   "high quality", "solid", "versatile", "convenient", "effective"]

/-- `SentimentAnalyzer.negative_keywords`. -/
def negative_keywords : List String :=
  ["bad", "poor", "worst", "terrible", "disappointing", "awful",
   "expensive", "overpriced", "clumpy", "gritty", "artificial",
   "aftertaste", "digestive", "discomfort", "drawback", "downside"]

/-- `SentimentAnalyzer.neutral_keywords`. -/
def neutral_keywords : List String :=
  ["offers", "contains", "delivers", "provides", "includes",
   "available", "priced", "costs", "flavors", "serving"]

/-- `SentimentResult` dataclass. -/
structure SentimentResult where
  text : String
  label : String
  score : ℚ
  rating : ℕ
deriving DecidableEq, Repr

/-- `BrandSentiment` dataclass. -/
structure BrandSentiment where
  brand : String
  statements : List SentimentResult
  avg_score : ℚ
  avg_rating : ℚ
  positive_count : ℕ
  negative_count : ℕ
  neutral_count : ℕ
deriving DecidableEq, Repr

/-- `SentimentAnalyzer._score_to_rating`. -/
def score_to_rating (score : ℚ) : ℕ :=
  if score ≥ 0.8 then 5
  else if score ≥ 0.6 then 4
  else if score ≥ 0.4 then 3
  else if score ≥ 0.2 then 2
  else 1

/-- `positive_count` of `analyze_statement`:
`sum(1 for word in self.positive_keywords if word in text_lower)`. -/
def posCount (text_lower : List Char) : ℕ :=
  positive_keywords.countP (fun w => subOf w.data text_lower)

/-- `negative_count` of `analyze_statement`. -/
def negCount (text_lower : List Char) : ℕ :=
  negative_keywords.countP (fun w => subOf w.data text_lower)

/-- `neutral_count` of `analyze_statement`. -/
def neuCount (text_lower : List Char) : ℕ :=
  neutral_keywords.countP (fun w => subOf w.data text_lower)

/-- The `score` computation of `analyze_statement`: `0.5` when no keyword
was found, else `((pos - neg) / total + 1) / 2`. -/
def compute_score (positive_count negative_count neutral_count : ℕ) : ℚ :=
  if positive_count + negative_count + neutral_count = 0 then 0.5
  else (((positive_count : ℚ) - (negative_count : ℚ)) /
    ((positive_count + negative_count + neutral_count : ℕ) : ℚ) + 1) / 2

/-- The `label` branch of `analyze_statement`. -/
def label_of (score : ℚ) : String :=
  if score > 0.6 then "POSITIVE"
  else if score < 0.4 then "NEGATIVE"
  else "NEUTRAL"

/-- `SentimentAnalyzer.analyze_statement`. -/
def analyze_statement (text : String) : SentimentResult :=
  let text_lower := lowerL text.data
  let score := compute_score (posCount text_lower) (negCount text_lower) (neuCount text_lower)
  { text := text, label := label_of score, score := score, rating := score_to_rating score }

/-- `SentimentAnalyzer.analyze_brand_statements`. -/
def analyze_brand_statements (brand : String) (statements : List String) : BrandSentiment :=
  let sentiment_results := statements.map analyze_statement
  match sentiment_results with
  | [] => ⟨brand, [], 0.0, 0.0, 0, 0, 0⟩
  | _ :: _ =>
    { brand := brand
      statements := sentiment_results
      avg_score := (sentiment_results.map (fun r => r.score)).sum / (sentiment_results.length : ℚ)
      avg_rating := (sentiment_results.map (fun r => (r.rating : ℚ))).sum / (sentiment_results.length : ℚ)
      positive_count := sentiment_results.countP (fun r => r.label == "POSITIVE")
      negative_count := sentiment_results.countP (fun r => r.label == "NEGATIVE")
      neutral_count := sentiment_results.countP (fun r => r.label == "NEUTRAL") }

/-- Round-half-to-even on a rational, modelling Python `round(x)` (the
values rounded in this development are exact decimals). -/
def roundHalfEven (x : ℚ) : ℤ :=
  let f := ⌊x⌋
  let r := x - (f : ℚ)
  if r < 1/2 then f
  else if 1/2 < r then f + 1
  else if f % 2 = 0 then f else f + 1

/-- Model of Python `round(x, n)`. -/
def pyRound (x : ℚ) (n : ℕ) : ℚ :=
  (roundHalfEven (x * 10 ^ n) : ℚ) / 10 ^ n

/-- One entry of the `statements` list of a rating summary. -/
structure RatingStmt where
  text : String
  label : String
  rating : ℕ
deriving DecidableEq, Repr

/-- The rating-summary dictionary produced by `create_rating_summary`. -/
structure RatingRow where
  brand : String
  avg_rating : ℚ
  avg_score : ℚ
  total_statements : ℕ
  positive_percentage : ℚ
  negative_percentage : ℚ
  neutral_percentage : ℚ
  statements : List RatingStmt
deriving DecidableEq, Repr

/-- `SentimentAnalyzer.create_rating_summary`. -/
def create_rating_summary (bs : BrandSentiment) : RatingRow :=
  let total := bs.statements.length
  if total = 0 then
    ⟨bs.brand, 0.0, 0.0, 0, 0.0, 0.0, 0.0, []⟩
  else
    { brand := bs.brand
      avg_rating := pyRound bs.avg_rating 2
      avg_score := pyRound bs.avg_score 3
      total_statements := total
      positive_percentage := pyRound ((bs.positive_count : ℚ) / (total : ℚ) * 100) 1
      negative_percentage := pyRound ((bs.negative_count : ℚ) / (total : ℚ) * 100) 1
      neutral_percentage := pyRound ((bs.neutral_count : ℚ) / (total : ℚ) * 100) 1
      statements := bs.statements.map (fun s => ⟨s.text, s.label, s.rating⟩) }

/-- `SentimentAnalyzer.extract_statements_about_brand`. -/
def extract_statements_about_brand (text brand : String) : List String :=
  let brand_normalized := pyStrip (lowerL brand.data)
  let sentences := splitRuns isSentChar text.data
  sentences.filterMap (fun sentence =>
    let sentence_clean := pyStrip (lowerL sentence)
    if subOf brand_normalized sentence_clean then some (String.mk (pyStrip sentence))
    else none)

/-! ## brand_segmenter.py -/

/-- `PriceCategory` enum. -/
inductive PriceCategory where
  | BUDGET
  | MID_RANGE
  | PREMIUM
deriving DecidableEq, Repr

/-- `QualityCategory` enum. -/
inductive QualityCategory where
  | BASIC
  | STANDARD
  | PREMIUM
deriving DecidableEq, Repr

/-- `BrandSegmenter.price_thresholds`: a Python dict iterated in insertion
order, embedded as the ordered association list; `none` stands for
`float('inf')`. -/
def price_thresholds : List (PriceCategory × Option ℚ) :=
  [(PriceCategory.BUDGET, some 0.90),
   (PriceCategory.MID_RANGE, some 1.20),
   (PriceCategory.PREMIUM, none)]

/-- `BrandSegmenter.quality_thresholds`, likewise in insertion order. -/
def quality_thresholds : List (QualityCategory × Option ℚ) :=
  [(QualityCategory.BASIC, some 4.0),
   (QualityCategory.STANDARD, some 4.5),
   (QualityCategory.PREMIUM, none)]

/-- `x <= threshold` where `none` is `float('inf')`. -/
def leOpt (x : ℚ) : Option ℚ → Bool
  | none => true
  | some t => decide (x ≤ t)

/-- `BrandSegmenter._categorize_price`. -/
def categorize_price (price_per_serving : Option ℚ) : PriceCategory :=
  match price_per_serving with
  | none => PriceCategory.MID_RANGE
  | some p =>
    match price_thresholds.find? (fun ct => leOpt p ct.2) with
    | some ct => ct.1
    | none => PriceCategory.PREMIUM

/-- `BrandSegmenter._categorize_quality`. -/
def categorize_quality (avg_rating : ℚ) : QualityCategory :=
  match quality_thresholds.find? (fun ct => leOpt avg_rating ct.2) with
  | some ct => ct.1
  | none => QualityCategory.PREMIUM

/-- `BrandSegment` dataclass. -/
structure BrandSegment where
  brand : String
  price_category : PriceCategory
  quality_category : QualityCategory
  avg_rating : ℚ
  price_per_serving : Option ℚ
  protein_content : Option ℤ
  third_party_tested : Bool
  artificial_sweeteners : Bool
  features : List String
deriving DecidableEq, Repr

/-! ## insight_generator.py -/

/-- `BrandInsight` dataclass. -/
structure BrandInsight where
  brand : String
  summary : String
  strengths : List String
  weaknesses : List String
  recommendations : List String
  key_features : List String
  target_audience : List String
deriving DecidableEq, Repr

/-- `InsightGenerator._generate_summary`. -/
def generate_summary (segment : BrandSegment) : String :=
  let p1 :=
    if segment.quality_category = QualityCategory.PREMIUM then
      segment.brand ++ " is a premium protein powder"
    else if segment.quality_category = QualityCategory.STANDARD then
      segment.brand ++ " is a solid, reliable protein powder"
    else
      segment.brand ++ " is a basic protein powder"
  let p2 :=
    if segment.avg_rating ≥ 4.5 then "with excellent customer ratings"
    else if segment.avg_rating ≥ 4.0 then "with good customer ratings"
    else "with average customer ratings"
  let p3 :=
    if segment.price_category = PriceCategory.BUDGET then "at an affordable price point"
    else if segment.price_category = PriceCategory.PREMIUM then "at a premium price point"
    else "at a mid-range price point"
  let p4 := if segment.third_party_tested then ["and is third-party tested for quality assurance"] else []
  let p5 := if !segment.artificial_sweeteners then ["with no artificial sweeteners"] else []
  String.intercalate " " ([p1, p2, p3] ++ p4 ++ p5) ++ "."

/-- The fixed phrases appended by `_identify_strengths` before the
feature tags.  The checks `segment.price_per_serving and ...` /
`segment.protein_content and ...` use Python truthiness, so a value of
`0`/`0.0` fails them like `None`. -/
def strength_fixed (segment : BrandSegment) : List String :=
  let s1 :=
    if segment.quality_category = QualityCategory.PREMIUM then ["Premium quality and performance"]
    else if segment.avg_rating ≥ 4.5 then ["High customer satisfaction"]
    else []
  let s2 :=
    if segment.price_category = PriceCategory.BUDGET then ["Excellent value for money"]
    else match segment.price_per_serving with
      | some p => if p ≠ 0 ∧ p < 1.0 then ["Competitive pricing"] else []
      | none => []
  let s3 := if segment.third_party_tested then ["Third-party quality testing"] else []
  let s4 := if !segment.artificial_sweeteners then ["Clean ingredient profile"] else []
  let s5 :=
    match segment.protein_content with
    | some n => if n ≠ 0 ∧ n ≥ 25 then ["High protein content per serving"] else []
    | none => []
  s1 ++ s2 ++ s3 ++ s4 ++ s5

/-- `InsightGenerator._identify_strengths`: rule phrases, then
`strengths.extend(segment.features)`. -/
def identify_strengths (segment : BrandSegment) : List String :=
  strength_fixed segment ++ segment.features

/-- `InsightGenerator._identify_weaknesses`. -/
def identify_weaknesses (segment : BrandSegment) : List String :=
  let w1 := if segment.quality_category = QualityCategory.BASIC then ["Basic quality level"] else []
  let w2 := if segment.avg_rating < 4.0 then ["Lower customer satisfaction"] else []
  let w3 := if segment.price_category = PriceCategory.PREMIUM then ["Higher price point"] else []
  let w4 := if !segment.third_party_tested then ["No third-party testing"] else []
  let w5 := if segment.artificial_sweeteners then ["Contains artificial sweeteners"] else []
  let w6 :=
    match segment.protein_content with
    | some n => if n ≠ 0 ∧ n < 24 then ["Lower protein content compared to competitors"] else []
    | none => []
  w1 ++ w2 ++ w3 ++ w4 ++ w5 ++ w6

/-- `InsightGenerator._generate_recommendations`. -/
def generate_recommendations (segment : BrandSegment) : List String :=
  let r1 :=
    if segment.quality_category = QualityCategory.PREMIUM then
      ["Ideal for serious athletes and fitness enthusiasts"]
    else if segment.quality_category = QualityCategory.STANDARD then
      ["Good choice for regular gym-goers"]
    else
      ["Suitable for beginners or casual users"]
  let r2 :=
    if segment.price_category = PriceCategory.BUDGET then ["Perfect for budget-conscious consumers"]
    else if segment.price_category = PriceCategory.PREMIUM then ["Best for those prioritizing quality over cost"]
    else []
  let r3 := if !segment.artificial_sweeteners then ["Recommended for those avoiding artificial sweeteners"] else []
  let r4 := if segment.third_party_tested then ["Recommended for athletes requiring quality assurance"] else []
  let r5 :=
    if segment.avg_rating ≥ 4.5 then ["Highly recommended based on customer feedback"]
    else if segment.avg_rating ≥ 4.0 then ["Recommended for most users"]
    else []
  r1 ++ r2 ++ r3 ++ r4 ++ r5

/-- De-duplication preserving first-seen order, given the set of names
already seen (model of the `seen`-set loop in
`_identify_target_audience`). -/
def dedupFirstAux (seen : List String) : List String → List String
  | [] => []
  | x :: xs =>
    if seen.contains x then dedupFirstAux seen xs
    else x :: dedupFirstAux (x :: seen) xs

/-- De-duplication preserving first-seen order. -/
def dedupFirst (l : List String) : List String :=
  dedupFirstAux [] l

/-- `InsightGenerator._identify_target_audience`. -/
def identify_target_audience (segment : BrandSegment) : List String :=
  let a1 :=
    if segment.quality_category = QualityCategory.PREMIUM then
      ["Serious athletes", "Professional bodybuilders", "Fitness enthusiasts"]
    else if segment.quality_category = QualityCategory.STANDARD then
      ["Regular gym-goers", "Fitness enthusiasts", "Health-conscious individuals"]
    else
      ["Beginners", "Casual users", "Budget-conscious consumers"]
  let a2 :=
    if segment.price_category = PriceCategory.BUDGET then ["Budget-conscious consumers"]
    else if segment.price_category = PriceCategory.PREMIUM then ["Premium market consumers"]
    else []
  let a3 := if !segment.artificial_sweeteners then ["Health-conscious individuals"] else []
  let a4 := if segment.third_party_tested then ["Competitive athletes"] else []
  dedupFirst (a1 ++ a2 ++ a3 ++ a4)

/-- `InsightGenerator.generate_brand_insight` (the optional
`sentiment_data` argument is accepted and ignored, as in the source). -/
def generate_brand_insight (segment : BrandSegment)
    (_sentiment_data : Option BrandSentiment) : BrandInsight :=
  { brand := segment.brand
    summary := generate_summary segment
    strengths := identify_strengths segment
    weaknesses := identify_weaknesses segment
    recommendations := generate_recommendations segment
    key_features := segment.features
    target_audience := identify_target_audience segment }

/-- The sort/min key `x.price_per_serving or float('inf')` used by the
comparative queries: Python `or` replaces any falsy value — `None` and
`0.0` alike — by `float('inf')`, modelled as `⊤` in `WithTop ℚ`. -/
def priceOrInf (s : BrandSegment) : WithTop ℚ :=
  match s.price_per_serving with
  | none => ⊤
  | some p => if p = 0 then ⊤ else (p : WithTop ℚ)

/-- Python `min(iterable, key=...)`: fold keeping the incumbent unless a
later element's key is strictly smaller (so the first minimum wins). -/
def pyMinBy {α β : Type} [LinearOrder β] (key : α → β) : α → List α → α
  | best, [] => best
  | best, x :: t => pyMinBy key (if key x < key best then x else best) t

/-- Python `max(iterable, key=...)`: fold keeping the incumbent unless a
later element's key is strictly larger (so the first maximum wins). -/
def pyMaxBy {α β : Type} [LinearOrder β] (key : α → β) : α → List α → α
  | best, [] => best
  | best, x :: t => pyMaxBy key (if key best < key x then x else best) t

/-- The dictionary returned by `generate_comparative_insights`. -/
structure ComparativeInsights where
  best_value : Option BrandSegment
  highest_quality : Option BrandSegment
  most_affordable : Option BrandSegment
  premium_choice : Option BrandSegment
  clean_ingredients : List String
  third_party_tested : List String
  comparison_summary : String
deriving DecidableEq, Repr

/-- `InsightGenerator._generate_comparison_summary`. -/
def generate_comparison_summary (insights : ComparativeInsights) : String :=
  let q1 :=
    match insights.best_value with
    | some s => ["For best value, consider " ++ s.brand]
    | none => []
  let q2 :=
    match insights.highest_quality with
    | some s => ["For highest quality, " ++ s.brand ++ " leads the pack"]
    | none => []
  let q3 :=
    match insights.most_affordable with
    | some s => [s.brand ++ " is the most affordable option"]
    | none => []
  let q4 :=
    match insights.premium_choice with
    | some s => ["For premium quality, " ++ s.brand ++ " is the top choice"]
    | none => []
  let q5 :=
    match insights.clean_ingredients with
    | [] => []
    | l => ["Brands with clean ingredients: " ++ String.intercalate ", " l]
  let q6 :=
    match insights.third_party_tested with
    | [] => []
    | l => ["Third-party tested brands: " ++ String.intercalate ", " l]
  String.intercalate " " (q1 ++ q2 ++ q3 ++ q4 ++ q5 ++ q6) ++ "."

/-- `InsightGenerator.generate_comparative_insights`. -/
def generate_comparative_insights (segments : List BrandSegment) : ComparativeInsights :=
  match segments with
  | [] =>
    { best_value := none, highest_quality := none, most_affordable := none,
      premium_choice := none, clean_ingredients := [], third_party_tested := [],
      comparison_summary := "" }
  | h :: t =>
    let high_quality := (h :: t).filter (fun s =>
      s.quality_category = QualityCategory.STANDARD ∨
      s.quality_category = QualityCategory.PREMIUM)
    let best_value :=
      match high_quality with
      | [] => none
      | bh :: bt => some (pyMinBy priceOrInf bh bt)
    let highest_quality := some (pyMaxBy (fun s => s.avg_rating) h t)
    let most_affordable := some (pyMinBy priceOrInf h t)
    let premium_brands := (h :: t).filter (fun s =>
      s.quality_category = QualityCategory.PREMIUM)
    let premium_choice :=
      match premium_brands with
      | [] => none
      | ph :: pt => some (pyMaxBy (fun s => s.avg_rating) ph pt)
    let clean_ingredients :=
      ((h :: t).filter (fun s => !s.artificial_sweeteners)).map (fun s => s.brand)
    let tested :=
      ((h :: t).filter (fun s => s.third_party_tested)).map (fun s => s.brand)
    let partialInsights : ComparativeInsights :=
      { best_value := best_value, highest_quality := highest_quality,
        most_affordable := most_affordable, premium_choice := premium_choice,
        clean_ingredients := clean_ingredients, third_party_tested := tested,
        comparison_summary := "" }
    { partialInsights with
        comparison_summary := generate_comparison_summary partialInsights }

/-! ## analysis_engine.py (per-brand step of `run_full_analysis`) -/

/-- The body of the per-brand loop of `ReactRadarEngine.run_full_analysis`:
extract the brand's statements; if none, record the neutral-default
`BrandSentiment` (0.5 / 3.0) and the matching default rating row without
calling `analyze_brand_statements`; otherwise aggregate and summarise. -/
def processBrand (transcript brand : String) : BrandSentiment × RatingRow :=
  match extract_statements_about_brand transcript brand with
  | [] =>
    (⟨brand, [], 0.5, 3.0, 0, 0, 0⟩,
     ⟨brand, 3.0, 0.5, 0, 0.0, 0.0, 0.0, []⟩)
  | s :: rest =>
    let sentiment := analyze_brand_statements brand (s :: rest)
    (sentiment, create_rating_summary sentiment)

/-! ## Basic lemmas about the sentiment scorer -/

lemma analyze_statement_score (t : String) :
    (analyze_statement t).score =
      compute_score (posCount (lowerL t.data)) (negCount (lowerL t.data)) (neuCount (lowerL t.data)) := rfl

lemma analyze_statement_label (t : String) :
    (analyze_statement t).label =
      label_of (compute_score (posCount (lowerL t.data)) (negCount (lowerL t.data)) (neuCount (lowerL t.data))) := rfl

lemma analyze_statement_rating (t : String) :
    (analyze_statement t).rating =
      score_to_rating (compute_score (posCount (lowerL t.data)) (negCount (lowerL t.data)) (neuCount (lowerL t.data))) := rfl

lemma compute_score_bounds (p n u : ℕ) :
    0 ≤ compute_score p n u ∧ compute_score p n u ≤ 1 := by
  unfold compute_score
  split_ifs with h
  · norm_num
  · have hT : (0 : ℚ) < ((p + n + u : ℕ) : ℚ) := by
      exact_mod_cast Nat.pos_of_ne_zero h
    have h1 : ((p : ℚ) - (n : ℚ)) / ((p + n + u : ℕ) : ℚ) ≤ 1 := by
      rw [div_le_one hT]
      push_cast
      linarith
    have h2 : (-1 : ℚ) ≤ ((p : ℚ) - (n : ℚ)) / ((p + n + u : ℕ) : ℚ) := by
      rw [le_div_iff₀ hT]
      push_cast
      linarith
    constructor <;> [linarith; linarith]

lemma score_to_rating_cases (s : ℚ) :
    score_to_rating s = 1 ∨ score_to_rating s = 2 ∨ score_to_rating s = 3 ∨
      score_to_rating s = 4 ∨ score_to_rating s = 5 := by
  unfold score_to_rating
  split_ifs <;> simp

lemma label_of_cases (s : ℚ) :
    label_of s = "POSITIVE" ∨ label_of s = "NEGATIVE" ∨ label_of s = "NEUTRAL" := by
  unfold label_of
  split_ifs <;> simp

lemma label_of_pos {s : ℚ} (h : label_of s = "POSITIVE") : 0.6 < s := by
  unfold label_of at h
  split_ifs at h with h1 h2
  · exact h1
  · exact absurd h (by decide)
  · exact absurd h (by decide)

lemma label_of_neg {s : ℚ} (h : label_of s = "NEGATIVE") : s < 0.4 := by
  unfold label_of at h
  split_ifs at h with h1 h2
  · exact absurd h (by decide)
  · exact h2
  · exact absurd h (by decide)

lemma label_of_neu {s : ℚ} (h : label_of s = "NEUTRAL") : 0.4 ≤ s ∧ s ≤ 0.6 := by
  unfold label_of at h
  split_ifs at h with h1 h2
  · exact absurd h (by decide)
  · exact absurd h (by decide)
  · constructor <;> linarith

lemma score_to_rating_of_pos {s : ℚ} (h : 0.6 < s) :
    score_to_rating s = 4 ∨ score_to_rating s = 5 := by
  unfold score_to_rating
  split_ifs with h1 h2 h3 h4
  · exact Or.inr rfl
  · exact Or.inl rfl
  · exact absurd (le_of_lt h) h2
  · exact absurd (le_of_lt h) h2
  · exact absurd (le_of_lt h) h2

lemma score_to_rating_of_neg {s : ℚ} (h : s < 0.4) :
    score_to_rating s = 1 ∨ score_to_rating s = 2 := by
  unfold score_to_rating
  split_ifs with h1 h2 h3 h4
  · exact absurd h1 (by linarith)
  · exact absurd h2 (by linarith)
  · exact absurd h3 (by linarith)
  · exact Or.inr rfl
  · exact Or.inl rfl

lemma score_to_rating_of_neu {s : ℚ} (h1 : 0.4 ≤ s) (h2 : s ≤ 0.6) :
    score_to_rating s = 3 ∨ score_to_rating s = 4 := by
  unfold score_to_rating
  split_ifs with ha hb
  · exact absurd ha (by linarith)
  · exact Or.inr rfl
  · exact Or.inl rfl

/-! ## Spec-side reference definitions (written from the spec's wording,
to be compared against the source embedding) -/

/-- Spec: "pos ... the number of keywords from the ... fixed set present
as substrings of the lower-cased text". -/
def spec_pos (t : String) : ℕ :=
  (positive_keywords.filter (fun w => subOf w.data (lowerL t.data))).length

/-- Spec: negative-keyword count. -/
def spec_neg (t : String) : ℕ :=
  (negative_keywords.filter (fun w => subOf w.data (lowerL t.data))).length

/-- Spec: neutral-keyword count. -/
def spec_neu (t : String) : ℕ :=
  (neutral_keywords.filter (fun w => subOf w.data (lowerL t.data))).length

/-- Spec: `total = pos + neg + neu`. -/
def spec_total (t : String) : ℕ := spec_pos t + spec_neg t + spec_neu t

/-- Spec: "the score is 0.5 when total == 0 and otherwise
`((pos - neg) / total + 1) / 2`". -/
def spec_score (t : String) : ℚ :=
  if spec_total t = 0 then 0.5
  else (((spec_pos t : ℚ) - (spec_neg t : ℚ)) / ((spec_total t : ℕ) : ℚ) + 1) / 2

/-- Spec: "the label is POSITIVE iff score > 0.6, NEGATIVE iff
score < 0.4, and NEUTRAL otherwise". -/
def spec_label (t : String) : String :=
  if spec_score t > 0.6 then "POSITIVE"
  else if spec_score t < 0.4 then "NEGATIVE"
  else "NEUTRAL"

/-- Spec: "the star rating is 5 if score >= 0.8, else 4 if score >= 0.6,
else 3 if score >= 0.4, else 2 if score >= 0.2, else 1". -/
def spec_rating (t : String) : ℕ :=
  if spec_score t ≥ 0.8 then 5
  else if spec_score t ≥ 0.6 then 4
  else if spec_score t ≥ 0.4 then 3
  else if spec_score t ≥ 0.2 then 2
  else 1

/-- Claim C1: for every input text, `analyze_statement` computes score,
label and star rating exactly by the spec's reference definition
(keyword counts over the lower-cased text; score `0.5` on no evidence,
else `((pos - neg) / total + 1) / 2`; label bands with NEUTRAL on the
closed band `[0.4, 0.6]`; rating thresholds `0.8/0.6/0.4/0.2`). -/
theorem C1_analyze_statement_reference (t : String) :
    (analyze_statement t).score = spec_score t ∧
    (analyze_statement t).label = spec_label t ∧
    (analyze_statement t).rating = spec_rating t := by
  have hp : posCount (lowerL t.data) = spec_pos t := by
    simp [posCount, spec_pos, List.countP_eq_length_filter]
  have hn : negCount (lowerL t.data) = spec_neg t := by
    simp [negCount, spec_neg, List.countP_eq_length_filter]
  have hu : neuCount (lowerL t.data) = spec_neu t := by
    simp [neuCount, spec_neu, List.countP_eq_length_filter]
  have hcs : compute_score (spec_pos t) (spec_neg t) (spec_neu t) = spec_score t := by
    simp [compute_score, spec_score, spec_total]
  refine ⟨?_, ?_, ?_⟩
  · rw [analyze_statement_score, hp, hn, hu, hcs]
  · rw [analyze_statement_label, hp, hn, hu, hcs]
    rfl
  · rw [analyze_statement_rating, hp, hn, hu, hcs]
    rfl

/-- Claim C4: for every input text, the score lies in `[0, 1]` and the
star rating is one of `1..5`. -/
theorem C4_score_and_rating_ranges (t : String) :
    (0 ≤ (analyze_statement t).score ∧ (analyze_statement t).score ≤ 1) ∧
    ((analyze_statement t).rating = 1 ∨ (analyze_statement t).rating = 2 ∨
     (analyze_statement t).rating = 3 ∨ (analyze_statement t).rating = 4 ∨
     (analyze_statement t).rating = 5) := by
  refine ⟨?_, ?_⟩
  · rw [analyze_statement_score]
    exact compute_score_bounds _ _ _
  · rw [analyze_statement_rating]
    exact score_to_rating_cases _

lemma countP_three_labels (l : List SentimentResult)
    (h : ∀ r ∈ l, r.label = "POSITIVE" ∨ r.label = "NEGATIVE" ∨ r.label = "NEUTRAL") :
    l.countP (fun r => r.label == "POSITIVE") + l.countP (fun r => r.label == "NEGATIVE") +
      l.countP (fun r => r.label == "NEUTRAL") = l.length := by
  induction l with
  | nil => rfl
  | cons a l ih =>
    have ha := h a (List.mem_cons_self a l)
    have ih' := ih (fun r hr => h r (List.mem_cons_of_mem a hr))
    rcases ha with ha | ha | ha <;>
      simp only [List.countP_cons, ha, List.length_cons] <;>
      simp <;> omega

/-- Claim C5: for every brand and statement list, the three label tallies
of `analyze_brand_statements` sum to the number of statements. -/
theorem C5_counts_partition (brand : String) (statements : List String) :
    (analyze_brand_statements brand statements).positive_count +
      (analyze_brand_statements brand statements).negative_count +
      (analyze_brand_statements brand statements).neutral_count = statements.length := by
  cases statements with
  | nil => rfl
  | cons s rest =>
    show ((s :: rest).map analyze_statement).countP (fun r => r.label == "POSITIVE") +
        ((s :: rest).map analyze_statement).countP (fun r => r.label == "NEGATIVE") +
        ((s :: rest).map analyze_statement).countP (fun r => r.label == "NEUTRAL") =
        (s :: rest).length
    rw [countP_three_labels]
    · rw [List.length_map]
    · intro r hr
      obtain ⟨x, _, rfl⟩ := List.mem_map.mp hr
      rw [analyze_statement_label]
      exact label_of_cases _

/-- Spec: price table "BUDGET if price <= 0.90, else MID_RANGE if <= 1.20,
else PREMIUM, with an unknown (None) price classified as MID_RANGE before
the thresholds are tested". -/
def spec_price_category (price_per_serving : Option ℚ) : PriceCategory :=
  match price_per_serving with
  | none => PriceCategory.MID_RANGE
  | some p =>
    if p ≤ 0.90 then PriceCategory.BUDGET
    else if p ≤ 1.20 then PriceCategory.MID_RANGE
    else PriceCategory.PREMIUM

/-- Spec: quality table "BASIC if avg_rating <= 4.0, else STANDARD if
<= 4.5, else PREMIUM". -/
def spec_quality_category (avg_rating : ℚ) : QualityCategory :=
  if avg_rating ≤ 4.0 then QualityCategory.BASIC
  else if avg_rating ≤ 4.5 then QualityCategory.STANDARD
  else QualityCategory.PREMIUM

/-- Claim C2: price and quality categorization follow the ordered
inclusive-upper-bound tables, with an unknown price classified MID_RANGE
before any threshold is tested; in particular price 0.90 is BUDGET,
0.901 is MID_RANGE, rating 4.5 is STANDARD and 4.501 is PREMIUM. -/
theorem C2_threshold_tables :
    (∀ pr, categorize_price pr = spec_price_category pr) ∧
    (∀ r, categorize_quality r = spec_quality_category r) ∧
    categorize_price (some 0.90) = PriceCategory.BUDGET ∧
    categorize_price (some 0.901) = PriceCategory.MID_RANGE ∧
    categorize_quality 4.5 = QualityCategory.STANDARD ∧
    categorize_quality 4.501 = QualityCategory.PREMIUM := by
  have hp : ∀ pr, categorize_price pr = spec_price_category pr := by
    intro pr
    cases pr with
    | none => rfl
    | some p =>
      simp only [categorize_price, price_thresholds, spec_price_category]
      by_cases h1 : p ≤ 0.90
      · simp [List.find?, leOpt, h1]
      · by_cases h2 : p ≤ 1.20 <;> simp [List.find?, leOpt, h1, h2]
  have hq : ∀ r, categorize_quality r = spec_quality_category r := by
    intro r
    simp only [categorize_quality, quality_thresholds, spec_quality_category]
    by_cases h1 : r ≤ 4.0
    · simp [List.find?, leOpt, h1]
    · by_cases h2 : r ≤ 4.5 <;> simp [List.find?, leOpt, h1, h2]
  refine ⟨hp, hq, ?_, ?_, ?_, ?_⟩
  · rw [hp]; norm_num [spec_price_category]
  · rw [hp]; norm_num [spec_price_category]
  · rw [hq]; norm_num [spec_quality_category]
  · rw [hq]; norm_num [spec_quality_category]

/-- Claim C9: on an empty segment list, `generate_comparative_insights`
returns `None` for all four best-of fields, empty brand lists, and an
empty (present) comparison summary string. -/
theorem C9_empty_comparative :
    (generate_comparative_insights []).best_value = none ∧
    (generate_comparative_insights []).highest_quality = none ∧
    (generate_comparative_insights []).most_affordable = none ∧
    (generate_comparative_insights []).premium_choice = none ∧
    (generate_comparative_insights []).clean_ingredients = [] ∧
    (generate_comparative_insights []).third_party_tested = [] ∧
    (generate_comparative_insights []).comparison_summary = "" :=
  ⟨rfl, rfl, rfl, rfl, rfl, rfl, rfl⟩

/-- Claim C3: the two zero-statement defaults are distinct layered
policies.  `analyze_brand_statements` on an empty list returns the
all-zero aggregate (`avg_score = avg_rating = 0.0`), while the pipeline's
per-brand step, when extraction finds no statements, records the neutral
default `BrandSentiment` (`avg_score = 0.5`, `avg_rating = 3.0`, zero
counts, no statements) and the matching default rating row
(`avg_rating = 3.0`, `avg_score = 0.5`, `total_statements = 0`, all
percentages `0.0`) without invoking the aggregator — whose empty-list
output differs from the pipeline default. -/
theorem C3_zero_statement_defaults :
    (∀ brand, analyze_brand_statements brand [] =
      ⟨brand, [], 0.0, 0.0, 0, 0, 0⟩) ∧
    (∀ transcript brand, extract_statements_about_brand transcript brand = [] →
      processBrand transcript brand =
        (⟨brand, [], 0.5, 3.0, 0, 0, 0⟩, ⟨brand, 3.0, 0.5, 0, 0.0, 0.0, 0.0, []⟩)) ∧
    (∀ brand, (⟨brand, [], 0.5, 3.0, 0, 0, 0⟩ : BrandSentiment) ≠
      analyze_brand_statements brand []) := by
  refine ⟨fun brand => rfl, ?_, ?_⟩
  · intro t b h
    simp [processBrand, h]
  · intro b hEq
    rw [show analyze_brand_statements b [] =
      (⟨b, [], 0.0, 0.0, 0, 0, 0⟩ : BrandSentiment) from rfl] at hEq
    simp only [BrandSentiment.mk.injEq] at hEq
    norm_num at hEq

/-- Witness for C3: a transcript mentioning no brand "Acme" statements
triggers the pipeline's neutral 0.5/3.0 default. -/
theorem C3_zero_statement_defaults_witness :
    processBrand "Nothing here." "Acme" =
      (⟨"Acme", [], 0.5, 3.0, 0, 0, 0⟩, ⟨"Acme", 3.0, 0.5, 0, 0.0, 0.0, 0.0, []⟩) :=
  C3_zero_statement_defaults.2.1 "Nothing here." "Acme" (by decide)

/-- Claim C10: label and rating are mutually consistent — POSITIVE forces
rating 4 or 5, NEGATIVE forces 1 or 2, NEUTRAL forces 3 or 4; and the
boundary score 0.6 (text with pos = 3, neg = 2, neu = 0) yields label
NEUTRAL together with a 4-star rating. -/
theorem C10_label_rating_partition :
    (∀ t, ((analyze_statement t).label = "POSITIVE" →
            (analyze_statement t).rating = 4 ∨ (analyze_statement t).rating = 5) ∧
          ((analyze_statement t).label = "NEGATIVE" →
            (analyze_statement t).rating = 1 ∨ (analyze_statement t).rating = 2) ∧
          ((analyze_statement t).label = "NEUTRAL" →
            (analyze_statement t).rating = 3 ∨ (analyze_statement t).rating = 4)) ∧
    (analyze_statement "excellent great good bad poor").score = 0.6 ∧
    (analyze_statement "excellent great good bad poor").label = "NEUTRAL" ∧
    (analyze_statement "excellent great good bad poor").rating = 4 := by
  have hp : posCount (lowerL "excellent great good bad poor".data) = 3 := by decide
  have hn : negCount (lowerL "excellent great good bad poor".data) = 2 := by decide
  have hu : neuCount (lowerL "excellent great good bad poor".data) = 0 := by decide
  have hcs : compute_score 3 2 0 = 0.6 := by norm_num [compute_score]
  refine ⟨?_, ?_, ?_, ?_⟩
  · intro t
    rw [analyze_statement_label, analyze_statement_rating]
    exact ⟨fun h => score_to_rating_of_pos (label_of_pos h),
           fun h => score_to_rating_of_neg (label_of_neg h),
           fun h => score_to_rating_of_neu (label_of_neu h).1 (label_of_neu h).2⟩
  · rw [analyze_statement_score, hp, hn, hu, hcs]
  · rw [analyze_statement_label, hp, hn, hu, hcs]
    norm_num [label_of]
  · rw [analyze_statement_rating, hp, hn, hu, hcs]
    norm_num [score_to_rating]

/-- Witness for C10: a concrete POSITIVE-labelled text receives a rating
in `{4, 5}` by the consistency theorem. -/
theorem C10_label_rating_partition_witness :
    (analyze_statement "excellent").rating = 4 ∨ (analyze_statement "excellent").rating = 5 := by
  have hlabel : (analyze_statement "excellent").label = "POSITIVE" := by
    have hp : posCount (lowerL "excellent".data) = 1 := by decide
    have hn : negCount (lowerL "excellent".data) = 0 := by decide
    have hu : neuCount (lowerL "excellent".data) = 0 := by decide
    rw [analyze_statement_label, hp, hn, hu]
    norm_num [compute_score, label_of]
  exact (C10_label_rating_partition.1 "excellent").1 hlabel

/-! ## Claim C7: statement extraction -/

lemma filterMap_ite_eq_map_filter {α β : Type} (p : α → Bool) (f : α → β) (l : List α) :
    l.filterMap (fun a => if p a then some (f a) else none) = (l.filter p).map f := by
  induction l with
  | nil => rfl
  | cons a l ih =>
    by_cases h : p a <;> simp [List.filterMap_cons, List.filter_cons, h, ih]

/-- Spec: split the transcript on runs of `.`, `!`, `?`; keep, in
transcript order, the sentences whose lower-cased trimmed form contains
the lower-cased whitespace-trimmed brand name as a substring; return them
whitespace-trimmed with original casing. -/
def spec_extract (text brand : String) : List String :=
  ((splitRuns isSentChar text.data).filter
      (fun sentence => subOf (pyStrip (lowerL brand.data)) (pyStrip (lowerL sentence)))).map
    (fun sentence => String.mk (pyStrip sentence))

/-- Claim C7: for every transcript and brand name,
`extract_statements_about_brand` returns exactly the trimmed sentences
(split at runs of sentence punctuation, in transcript order) whose
lower-cased trimmed form contains the normalized brand name. -/
theorem C7_extraction_reference (text brand : String) :
    extract_statements_about_brand text brand = spec_extract text brand := by
  unfold extract_statements_about_brand spec_extract
  exact filterMap_ite_eq_map_filter _ _ _

/-! ## Claim C6: comparative selection -/

section MinMaxBy

variable {α β : Type} [LinearOrder β] (key : α → β)

/-- Minimum of the keys of a list, folded from an initial key. -/
def foldMinB (i : β) (t : List α) : β :=
  t.foldl (fun m x => min m (key x)) i

/-- Maximum of the keys of a list, folded from an initial key. -/
def foldMaxB (i : β) (t : List α) : β :=
  t.foldl (fun m x => max m (key x)) i

lemma foldMinB_le_init : ∀ (t : List α) (i : β), foldMinB key i t ≤ i := by
  intro t
  induction t with
  | nil => intro i; exact le_refl i
  | cons x t ih =>
    intro i
    calc foldMinB key (min i (key x)) t ≤ min i (key x) := ih _
      _ ≤ i := min_le_left _ _

lemma init_le_foldMaxB : ∀ (t : List α) (i : β), i ≤ foldMaxB key i t := by
  intro t
  induction t with
  | nil => intro i; exact le_refl i
  | cons x t ih =>
    intro i
    calc i ≤ max i (key x) := le_max_left _ _
      _ ≤ foldMaxB key (max i (key x)) t := ih _

/-- Python `min(l, key=...)` returns the first element of `l` whose key
attains the minimum of all keys. -/
lemma pyMinBy_eq_find : ∀ (t : List α) (b : α),
    (b :: t).find? (fun x => decide (key x = foldMinB key (key b) t)) =
      some (pyMinBy key b t) := by
  intro t
  induction t with
  | nil =>
    intro b
    simp [pyMinBy, foldMinB]
  | cons x t ih =>
    intro b
    have hM : foldMinB key (key b) (x :: t) = foldMinB key (min (key b) (key x)) t := rfl
    by_cases hx : key x < key b
    · have hmin : min (key b) (key x) = key x := min_eq_right (le_of_lt hx)
      have hM' : foldMinB key (key b) (x :: t) = foldMinB key (key x) t := by
        rw [hM, hmin]
      have hpy : pyMinBy key b (x :: t) = pyMinBy key x t := by
        simp [pyMinBy, if_pos hx]
      have hbM : ¬ (key b = foldMinB key (key b) (x :: t)) := by
        rw [hM']
        intro hEq
        have hle : foldMinB key (key x) t ≤ key x := foldMinB_le_init key t (key x)
        rw [← hEq] at hle
        exact absurd hx (not_lt.mpr hle)
      rw [hpy, ← ih x]
      rw [List.find?_cons_of_neg _ (by simpa using hbM), hM']
    · have hbx : key b ≤ key x := not_lt.mp hx
      have hmin : min (key b) (key x) = key b := min_eq_left hbx
      have hM' : foldMinB key (key b) (x :: t) = foldMinB key (key b) t := by
        rw [hM, hmin]
      have hpy : pyMinBy key b (x :: t) = pyMinBy key b t := by
        simp [pyMinBy, if_neg hx]
      rw [hpy, ← ih b, hM']
      by_cases hb : key b = foldMinB key (key b) t
      · rw [List.find?_cons_of_pos _ (by simpa using hb),
          List.find?_cons_of_pos _ (by simpa using hb)]
      · have hxM : ¬ (key x = foldMinB key (key b) t) := by
          intro hEq
          have hle : foldMinB key (key b) t ≤ key b := foldMinB_le_init key t (key b)
          have : key b = foldMinB key (key b) t := le_antisymm (hEq ▸ hbx) hle
          exact hb this
        rw [List.find?_cons_of_neg _ (by simpa using hb),
          List.find?_cons_of_neg _ (by simpa using hxM),
          List.find?_cons_of_neg _ (by simpa using hb)]

/-- Python `max(l, key=...)` returns the first element of `l` whose key
attains the maximum of all keys. -/
lemma pyMaxBy_eq_find : ∀ (t : List α) (b : α),
    (b :: t).find? (fun x => decide (key x = foldMaxB key (key b) t)) =
      some (pyMaxBy key b t) := by
  intro t
  induction t with
  | nil =>
    intro b
    simp [pyMaxBy, foldMaxB]
  | cons x t ih =>
    intro b
    have hM : foldMaxB key (key b) (x :: t) = foldMaxB key (max (key b) (key x)) t := rfl
    by_cases hx : key b < key x
    · have hmax : max (key b) (key x) = key x := max_eq_right (le_of_lt hx)
      have hM' : foldMaxB key (key b) (x :: t) = foldMaxB key (key x) t := by
        rw [hM, hmax]
      have hpy : pyMaxBy key b (x :: t) = pyMaxBy key x t := by
        simp [pyMaxBy, if_pos hx]
      have hbM : ¬ (key b = foldMaxB key (key b) (x :: t)) := by
        rw [hM']
        intro hEq
        have hle : key x ≤ foldMaxB key (key x) t := init_le_foldMaxB key t (key x)
        rw [← hEq] at hle
        exact absurd hx (not_lt.mpr hle)
      rw [hpy, ← ih x]
      rw [List.find?_cons_of_neg _ (by simpa using hbM), hM']
    · have hxb : key x ≤ key b := not_lt.mp hx
      have hmax : max (key b) (key x) = key b := max_eq_left hxb
      have hM' : foldMaxB key (key b) (x :: t) = foldMaxB key (key b) t := by
        rw [hM, hmax]
      have hpy : pyMaxBy key b (x :: t) = pyMaxBy key b t := by
        simp [pyMaxBy, if_neg hx]
      rw [hpy, ← ih b, hM']
      by_cases hb : key b = foldMaxB key (key b) t
      · rw [List.find?_cons_of_pos _ (by simpa using hb),
          List.find?_cons_of_pos _ (by simpa using hb)]
      · have hxM : ¬ (key x = foldMaxB key (key b) t) := by
          intro hEq
          have hle : key b ≤ foldMaxB key (key b) t := init_le_foldMaxB key t (key b)
          have : key b = foldMaxB key (key b) t := le_antisymm hle (hEq ▸ hxb)
          exact hb this
        rw [List.find?_cons_of_neg _ (by simpa using hb),
          List.find?_cons_of_neg _ (by simpa using hxM),
          List.find?_cons_of_neg _ (by simpa using hb)]

end MinMaxBy

lemma gci_cons_most_affordable (hd : BrandSegment) (t : List BrandSegment) :
    (generate_comparative_insights (hd :: t)).most_affordable =
      some (pyMinBy priceOrInf hd t) := rfl

lemma gci_cons_highest_quality (hd : BrandSegment) (t : List BrandSegment) :
    (generate_comparative_insights (hd :: t)).highest_quality =
      some (pyMaxBy (fun s => s.avg_rating) hd t) := rfl

lemma gci_cons_best_value (hd : BrandSegment) (t : List BrandSegment) :
    (generate_comparative_insights (hd :: t)).best_value =
      match (hd :: t).filter (fun s =>
          s.quality_category = QualityCategory.STANDARD ∨
          s.quality_category = QualityCategory.PREMIUM) with
      | [] => none
      | bh :: bt => some (pyMinBy priceOrInf bh bt) := rfl

/-- Amended selection key: a price that is unknown (`None`) *or zero*
counts as `+∞` (Python `or` treats both as falsy). -/
def spec_afford_key (s : BrandSegment) : WithTop ℚ :=
  match s.price_per_serving with
  | none => ⊤
  | some p => if p = 0 then ⊤ else (p : WithTop ℚ)

lemma spec_afford_key_eq_priceOrInf : spec_afford_key = priceOrInf := by
  funext s
  cases h : s.price_per_serving <;> simp [spec_afford_key, priceOrInf, h]

/-- Spec: the first segment, in input order, whose amended affordability
key attains the minimum key of the list (`none` on an empty list). -/
def spec_first_cheapest (l : List BrandSegment) : Option BrandSegment :=
  match l with
  | [] => none
  | h :: t =>
    (h :: t).find? (fun x =>
      decide (spec_afford_key x = foldMinB spec_afford_key (spec_afford_key h) t))

/-- Spec: the first segment, in input order, attaining the maximum
`avg_rating` of the list (`none` on an empty list). -/
def spec_first_top_rated (l : List BrandSegment) : Option BrandSegment :=
  match l with
  | [] => none
  | h :: t =>
    (h :: t).find? (fun x =>
      decide (x.avg_rating = foldMaxB (fun s => s.avg_rating) h.avg_rating t))

/-- Claim C6 (amended): for every non-empty segment list,
`generate_comparative_insights` selects `most_affordable` as the first
segment of minimum price where an unknown (`None`) **or zero** price
counts as `+∞`, `best_value` as the first such minimum among the
segments of quality STANDARD or PREMIUM (`None` when there is no such
segment), and `highest_quality` as the first segment attaining the
maximum `avg_rating`. -/
theorem C6_comparative_selection (l : List BrandSegment) (h : l ≠ []) :
    (generate_comparative_insights l).most_affordable = spec_first_cheapest l ∧
    (generate_comparative_insights l).best_value =
      spec_first_cheapest (l.filter (fun s =>
        s.quality_category = QualityCategory.STANDARD ∨
        s.quality_category = QualityCategory.PREMIUM)) ∧
    (generate_comparative_insights l).highest_quality = spec_first_top_rated l := by
  match l with
  | [] => exact absurd rfl h
  | hd :: t =>
    refine ⟨?_, ?_, ?_⟩
    · rw [gci_cons_most_affordable, spec_first_cheapest, spec_afford_key_eq_priceOrInf]
      exact (pyMinBy_eq_find priceOrInf t hd).symm
    · rw [gci_cons_best_value]
      cases hf : (hd :: t).filter (fun s =>
          s.quality_category = QualityCategory.STANDARD ∨
          s.quality_category = QualityCategory.PREMIUM) with
      | nil => rfl
      | cons bh bt =>
        show some (pyMinBy priceOrInf bh bt) = spec_first_cheapest (bh :: bt)
        rw [spec_first_cheapest, spec_afford_key_eq_priceOrInf]
        exact (pyMinBy_eq_find priceOrInf bt bh).symm
    · rw [gci_cons_highest_quality, spec_first_top_rated]
      exact (pyMaxBy_eq_find (fun s => s.avg_rating) t hd).symm

/-- A quality segment whose per-serving price is exactly `0.0`. -/
def segZero : BrandSegment :=
  ⟨"ZeroPrice", PriceCategory.BUDGET, QualityCategory.STANDARD, 4.2,
    some 0, none, false, false, []⟩

/-- A quality segment priced at `1.0` per serving. -/
def segOne : BrandSegment :=
  ⟨"OnePrice", PriceCategory.MID_RANGE, QualityCategory.STANDARD, 4.2,
    some 1, none, false, false, []⟩

/-- Counterexample to C6 as stated: with a known price of `0.0` (smaller
than the known price `1.0` of the other segment), the claim's rule
"unknown (None) price counts as +∞, minimum price over all segments"
picks `segZero`, but the code maps the falsy price `0.0` to `+∞` as well
and returns `segOne` for both `most_affordable` and `best_value`. -/
theorem C6_comparative_selection_counterexample :
    segZero.price_per_serving = some 0 ∧ segOne.price_per_serving = some 1 ∧
    (generate_comparative_insights [segZero, segOne]).most_affordable ≠ some segZero ∧
    (generate_comparative_insights [segZero, segOne]).most_affordable = some segOne ∧
    (generate_comparative_insights [segZero, segOne]).best_value = some segOne := by
  have hkey : pyMinBy priceOrInf segZero [segOne] = segOne := by
    have h0 : priceOrInf segZero = ⊤ := by simp [priceOrInf, segZero]
    have h1 : priceOrInf segOne = ((1 : ℚ) : WithTop ℚ) := by
      norm_num [priceOrInf, segOne]
    simp [pyMinBy, h0, h1]
  have hfil : ([segZero, segOne].filter (fun s =>
      s.quality_category = QualityCategory.STANDARD ∨
      s.quality_category = QualityCategory.PREMIUM)) = [segZero, segOne] := by
    simp [segZero, segOne]
  refine ⟨rfl, rfl, ?_, ?_, ?_⟩
  · rw [gci_cons_most_affordable, hkey]
    intro hc
    exact absurd (congrArg BrandSegment.brand (Option.some.inj hc)) (by decide)
  · rw [gci_cons_most_affordable, hkey]
  · rw [gci_cons_best_value, hfil]
    show some (pyMinBy priceOrInf segZero [segOne]) = some segOne
    rw [hkey]

/-- Witness for C6: the amended selection rules instantiated at the
concrete two-segment list. -/
theorem C6_comparative_selection_witness :
    (generate_comparative_insights [segZero, segOne]).most_affordable =
      spec_first_cheapest [segZero, segOne] ∧
    (generate_comparative_insights [segZero, segOne]).best_value =
      spec_first_cheapest ([segZero, segOne].filter (fun s =>
        s.quality_category = QualityCategory.STANDARD ∨
        s.quality_category = QualityCategory.PREMIUM)) ∧
    (generate_comparative_insights [segZero, segOne]).highest_quality =
      spec_first_top_rated [segZero, segOne] :=
  C6_comparative_selection [segZero, segOne] (by simp)

/-! ## Claim C8: duplicate-freeness of insight lists -/

lemma dedupFirstAux_nodup :
    ∀ (l seen : List String),
      (dedupFirstAux seen l).Nodup ∧ ∀ x ∈ dedupFirstAux seen l, x ∉ seen := by
  intro l
  induction l with
  | nil => intro seen; exact ⟨List.nodup_nil, by simp [dedupFirstAux]⟩
  | cons a l ih =>
    intro seen
    by_cases h : seen.contains a
    · simp only [dedupFirstAux, if_pos h]
      exact ih seen
    · simp only [dedupFirstAux, if_neg h]
      obtain ⟨hnd, hni⟩ := ih (a :: seen)
      refine ⟨List.nodup_cons.mpr ⟨?_, hnd⟩, ?_⟩
      · intro hmem
        exact (hni a hmem) (List.mem_cons_self a seen)
      · intro x hx
        rcases List.mem_cons.mp hx with rfl | hx'
        · intro hxs
          exact h (by simpa using hxs)
        · intro hxs
          exact (hni x hx') (List.mem_cons_of_mem a hxs)

lemma dedupFirst_nodup (l : List String) : (dedupFirst l).Nodup :=
  (dedupFirstAux_nodup l []).1

lemma identify_weaknesses_nodup (segment : BrandSegment) :
    (identify_weaknesses segment).Nodup := by
  rcases segment with ⟨b, pc, qc, r, pps, prot, tested, sweet, feats⟩
  cases prot with
  | none => simp only [identify_weaknesses]; split_ifs <;> decide
  | some n => simp only [identify_weaknesses]; split_ifs <;> decide

lemma generate_recommendations_nodup (segment : BrandSegment) :
    (generate_recommendations segment).Nodup := by
  rcases segment with ⟨b, pc, qc, r, pps, prot, tested, sweet, feats⟩
  simp only [generate_recommendations]
  split_ifs <;> decide

lemma identify_target_audience_nodup (segment : BrandSegment) :
    (identify_target_audience segment).Nodup := by
  unfold identify_target_audience
  exact dedupFirst_nodup _

/-- The fixed strength phrases that `_identify_strengths` can contribute
ahead of the feature tags. -/
def strength_phrases : List String :=
  ["Premium quality and performance", "High customer satisfaction",
   "Excellent value for money", "Competitive pricing",
   "Third-party quality testing", "Clean ingredient profile",
   "High protein content per serving"]

lemma strength_fixed_nodup (segment : BrandSegment) :
    (strength_fixed segment).Nodup := by
  rcases segment with ⟨b, pc, qc, r, pps, prot, tested, sweet, feats⟩
  cases pps with
  | none =>
    cases prot with
    | none => simp only [strength_fixed]; split_ifs <;> decide
    | some n => simp only [strength_fixed]; split_ifs <;> decide
  | some p =>
    cases prot with
    | none => simp only [strength_fixed]; split_ifs <;> decide
    | some n => simp only [strength_fixed]; split_ifs <;> decide

lemma strength_fixed_subset (segment : BrandSegment) :
    ∀ x ∈ strength_fixed segment, x ∈ strength_phrases := by
  rcases segment with ⟨b, pc, qc, r, pps, prot, tested, sweet, feats⟩
  cases pps with
  | none =>
    cases prot with
    | none => simp only [strength_fixed]; split_ifs <;> decide
    | some n => simp only [strength_fixed]; split_ifs <;> decide
  | some p =>
    cases prot with
    | none => simp only [strength_fixed]; split_ifs <;> decide
    | some n => simp only [strength_fixed]; split_ifs <;> decide

/-- Claim C8 (amended): `weaknesses`, `recommendations` and
`target_audience` are always duplicate-free (the latter de-duplicated
preserving first-seen order); `key_features` and `strengths` copy the
segment's `features` verbatim, so they are duplicate-free provided
`features` is duplicate-free and (for `strengths`) shares no entry with
the fixed strength phrases. -/
theorem C8_insight_lists_nodup (segment : BrandSegment) (sd : Option BrandSentiment) :
    (generate_brand_insight segment sd).weaknesses.Nodup ∧
    (generate_brand_insight segment sd).recommendations.Nodup ∧
    (generate_brand_insight segment sd).target_audience.Nodup ∧
    (segment.features.Nodup → (generate_brand_insight segment sd).key_features.Nodup) ∧
    (segment.features.Nodup →
      (∀ f ∈ segment.features, f ∉ strength_phrases) →
      (generate_brand_insight segment sd).strengths.Nodup) := by
  refine ⟨identify_weaknesses_nodup segment, generate_recommendations_nodup segment,
    identify_target_audience_nodup segment, fun h => h, fun hf hdisj => ?_⟩
  show (identify_strengths segment).Nodup
  unfold identify_strengths
  rw [List.nodup_append]
  refine ⟨strength_fixed_nodup segment, hf, ?_⟩
  intro x hx hxf
  exact hdisj x hxf (strength_fixed_subset segment x hx)

/-- A segment whose feature list contains a duplicate tag. -/
def segDup : BrandSegment :=
  ⟨"Dup", PriceCategory.MID_RANGE, QualityCategory.BASIC, 3,
    none, none, false, true, ["Tasty", "Tasty"]⟩

/-- Counterexample to C8 as stated: a segment with a duplicated feature
tag yields a `BrandInsight` whose `key_features` and `strengths` lists
both contain duplicates. -/
theorem C8_insight_lists_nodup_counterexample :
    ¬ (generate_brand_insight segDup none).key_features.Nodup ∧
    ¬ (generate_brand_insight segDup none).strengths.Nodup := by
  constructor
  · show ¬ (["Tasty", "Tasty"] : List String).Nodup
    decide
  · have hfix : strength_fixed segDup = [] := by
      norm_num [strength_fixed, segDup]
      decide
    show ¬ (identify_strengths segDup).Nodup
    rw [show identify_strengths segDup = strength_fixed segDup ++ segDup.features from rfl, hfix]
    decide

/-- A segment with a clean, distinct feature list. -/
def segW : BrandSegment :=
  ⟨"Kirkland", PriceCategory.BUDGET, QualityCategory.BASIC, 4.2,
    some 0.78, some 25, false, true,
    ["Costco brand", "Good mixability", "Budget friendly"]⟩

/-- Witness for C8: all five insight lists are duplicate-free for a
segment whose features are distinct and disjoint from the fixed strength
phrases. -/
theorem C8_insight_lists_nodup_witness :
    (generate_brand_insight segW none).weaknesses.Nodup ∧
    (generate_brand_insight segW none).recommendations.Nodup ∧
    (generate_brand_insight segW none).target_audience.Nodup ∧
    (generate_brand_insight segW none).key_features.Nodup ∧
    (generate_brand_insight segW none).strengths.Nodup :=
  ⟨(C8_insight_lists_nodup segW none).1,
   (C8_insight_lists_nodup segW none).2.1,
   (C8_insight_lists_nodup segW none).2.2.1,
   (C8_insight_lists_nodup segW none).2.2.2.1 (by decide),
   (C8_insight_lists_nodup segW none).2.2.2.2 (by decide) (by decide)⟩
